import Mathlib

/-!
# Verification of the decoration-export diff core (`compare_json`)

Shallow embedding of the diff core of `decoCompare.py`.  A snapshot
(a parsed JSON export) is a Python dict from decoration identifiers
(strings) to integer quantities; we model it as an association list
with unique keys.  The functions below mirror the source line by line:

* `sortedItems` — `sorted(jsonObject.items())` (Python sorts pairs
  lexicographically);
* `newKeysList` — `set(jsonObject2) - set(jsonObject1)`;
* `unionKeys` — `sorted(jsonObject1.keys() | jsonObject2.keys())`;
* `classifyKey` — the body of the `for` loop (lines 77–88), with the
  possible `KeyError` from `jsonObject2[key]` made explicit as
  `Except.error`;
* `compare_json` — the whole function, including the identical-data
  short-circuit (line 65) and the aggregate totals (lines 92–93).
-/

/-- A snapshot: association list from identifier to quantity, mirroring a
Python dict (keys unique, see `Snapshot.WF`). -/
abbrev Snapshot := List (String × Int)

namespace Snapshot

/-- The keys of a snapshot, in insertion order (`dict.keys()`). -/
def keys (s : Snapshot) : List String := s.map Prod.fst

/-- Well-formedness: a Python dict never holds a key twice. -/
def WF (s : Snapshot) : Prop := s.keys.Nodup

/-- Key lookup: `d[k]` returns the value or raises; we return an `Option`. -/
def find (s : Snapshot) (k : String) : Option Int := s.lookup k

/-- `d.get(k, v)`: lookup with a default. -/
def getD (s : Snapshot) (k : String) (v : Int) : Int := (s.find k).getD v

/-- `k in d`: key membership test. -/
def hasKey (s : Snapshot) (k : String) : Bool := (s.find k).isSome

end Snapshot

/-- Python's string `<`: lexicographic comparison of the character
sequences (code-point order). -/
def strLt (a b : String) : Prop := List.Lex (· < ·) a.data b.data

instance : DecidableRel strLt := fun a b => by
  unfold strLt; infer_instance

/-- The non-strict version of `strLt`, the order `sorted(...)` uses on
identifiers. -/
def strLe (a b : String) : Prop := strLt a b ∨ a = b

instance : DecidableRel strLe := fun a b => by
  unfold strLe; infer_instance

/-- Lexicographic order on (identifier, quantity) pairs — how Python's
`sorted` orders the 2-tuples produced by `dict.items()`. -/
def pairLe (a b : String × Int) : Prop :=
  strLt a.1 b.1 ∨ (a.1 = b.1 ∧ a.2 ≤ b.2)

instance : DecidableRel pairLe := fun a b => by
  unfold pairLe; infer_instance

/-- `sorted(jsonObject.items())` (line 65). -/
def sortedItems (s : Snapshot) : List (String × Int) :=
  List.insertionSort pairLe s

/-- `set(jsonObject2) - set(jsonObject1)` (line 75): keys of the new
snapshot that are absent from the old one. -/
def newKeysList (o n : Snapshot) : List String :=
  n.keys.filter (fun k => !o.hasKey k)

/-- `sorted(jsonObject1.keys() | jsonObject2.keys())` (line 76): the sorted,
de-duplicated union of both key sets. -/
def unionKeys (o n : Snapshot) : List String :=
  List.insertionSort strLe ((o.keys ++ n.keys).dedup)

/-- A ChangeRecord: `{"Decoration": key, "Added": difference, "Total": total}`
(line 86). -/
structure ChangeRecord where
  id : String
  added : Int
  total : Int
deriving DecidableEq

/-- A NewItemRecord: `{"Decoration": key, "Amount": amount}` (line 80). -/
structure NewItemRecord where
  id : String
  amount : Int
deriving DecidableEq

/-- Outcome of classifying one key in the loop body. -/
inductive Classified where
  | none
  | changed (c : ChangeRecord)
  | newItem (r : NewItemRecord)
deriving DecidableEq

/-- The `elif` branch (lines 83–88): `key in jsonObject2 and
jsonObject1[key] != jsonObject2[key]`.  `jsonObject1[key]` is a plain
index, so a missing key would raise (`Except.error`). -/
def changedBranch (o n : Snapshot) (k : String) : Except Unit Classified :=
  match n.find k with
  | Option.none => Except.ok Classified.none
  | some nv =>
    match o.find k with
    | Option.none => Except.error ()
    | some ov =>
      if ov ≠ nv then Except.ok (Classified.changed ⟨k, nv - ov, nv⟩)
      else Except.ok Classified.none

/-- The loop body (lines 77–88) for one key.  The first condition is
`key in new_keys or (jsonObject1.get(key, 0) == 0 and jsonObject2[key] > 0)`;
`jsonObject2[key]` is a plain index and raises `KeyError` when the key is
absent from the new snapshot, modelled as `Except.error ()`. -/
def classifyKey (o n : Snapshot) (k : String) : Except Unit Classified :=
  if n.hasKey k ∧ ¬o.hasKey k then
    -- `key in new_keys`: treat as new; `amount = jsonObject2[key]`
    match n.find k with
    | some v => Except.ok (Classified.newItem ⟨k, v⟩)
    | Option.none => Except.error ()
  else if o.getD k 0 = 0 then
    -- second disjunct: evaluate `jsonObject2[key]` (may raise KeyError)
    match n.find k with
    | Option.none => Except.error ()
    | some v =>
      if 0 < v then Except.ok (Classified.newItem ⟨k, v⟩)
      else changedBranch o n k
  else changedBranch o n k

/-- The classification loop (lines 76–88): fold `classifyKey` over the keys,
appending records in iteration order; an exception aborts the whole pass. -/
def runLoop (o n : Snapshot) : List String →
    Except Unit (List ChangeRecord × List NewItemRecord)
  | [] => Except.ok ([], [])
  | k :: ks =>
    match classifyKey o n k with
    | Except.error e => Except.error e
    | Except.ok c =>
      match runLoop o n ks with
      | Except.error e => Except.error e
      | Except.ok (cs, ns) =>
        match c with
        | Classified.none => Except.ok (cs, ns)
        | Classified.changed cr => Except.ok (cr :: cs, ns)
        | Classified.newItem nr => Except.ok (cs, nr :: ns)

/-- The DiffResult tuple returned on line 96 (text renderings omitted:
they are presentation only). -/
structure DiffResult where
  changes : List ChangeRecord
  new_decos : List NewItemRecord
  total_changed : Int
  total_new : Nat
deriving DecidableEq

/-- The three ways `compare_json` can come out: the identical-data
short-circuit (`sys.exit()`, line 67), a propagating `KeyError`, or a
proper result. -/
inductive CompareOutcome where
  | identical
  | keyError
  | result (r : DiffResult)
deriving DecidableEq

/-- `compare_json` (lines 60–96), after loading: the identical-items
short-circuit, the classification loop, and the totals
`total_changed = sum(item['Added'] for item in changes)` and
`total_new = sum(1 for item in new_decos)`. -/
def compare_json (o n : Snapshot) : CompareOutcome :=
  if sortedItems o = sortedItems n then CompareOutcome.identical
  else
    match runLoop o n (unionKeys o n) with
    | Except.error _ => CompareOutcome.keyError
    | Except.ok (cs, ns) =>
      CompareOutcome.result ⟨cs, ns, (cs.map ChangeRecord.added).sum, ns.length⟩

/-! ## A pure description of the classification loop

`classifyKey` either raises or deterministically classifies a key by the
two boolean conditions below; we prove the equivalence and use it to turn
`runLoop` into a `filter`/`map` over the iterated key list. -/

/-- The new-item condition of line 77:
`key in new_keys or (jsonObject1.get(key, 0) == 0 and jsonObject2[key] > 0)`,
as a pure boolean (`false` in the case that would raise `KeyError`). -/
def isNewKey (o n : Snapshot) (k : String) : Bool :=
  (n.hasKey k && !o.hasKey k) ||
    (o.getD k 0 == 0 &&
      match n.find k with
      | some v => decide (0 < v)
      | Option.none => false)

/-- The changed condition of line 83:
`key in jsonObject2 and jsonObject1[key] != jsonObject2[key]`, reached only
when the new-item condition is false. -/
def isChangedKey (o n : Snapshot) (k : String) : Bool :=
  !isNewKey o n k &&
    (match n.find k, o.find k with
     | some nv, some ov => decide (ov ≠ nv)
     | _, _ => false)

/-- The ChangeRecord built on line 86 for a changed key. -/
def mkChange (o n : Snapshot) (k : String) : ChangeRecord :=
  ⟨k, n.getD k 0 - o.getD k 0, n.getD k 0⟩

/-- The NewItemRecord built on line 80 for a new key. -/
def mkNew (n : Snapshot) (k : String) : NewItemRecord :=
  ⟨k, n.getD k 0⟩

/-- Exception-free rendering of the loop body. -/
def classifyPure (o n : Snapshot) (k : String) : Classified :=
  if isNewKey o n k then Classified.newItem (mkNew n k)
  else if isChangedKey o n k then Classified.changed (mkChange o n k)
  else Classified.none

/-- `classifyKey` raises exactly when the key is absent from the new
snapshot while `old.get(key, 0) == 0` (the `jsonObject2[key]` lookup of
line 77), and otherwise returns the pure classification. -/
theorem classifyKey_eq (o n : Snapshot) (k : String) :
    classifyKey o n k =
      if n.find k = Option.none ∧ o.getD k 0 = 0 then Except.error ()
      else Except.ok (classifyPure o n k) := by
  rcases hn : n.find k with _ | nv <;> rcases ho : o.find k with _ | ov
  · simp [classifyKey, Snapshot.hasKey, Snapshot.getD, hn, ho]
  · by_cases hov : ov = 0
    · subst hov
      simp [classifyKey, Snapshot.hasKey, Snapshot.getD, hn, ho]
    · simp [classifyKey, changedBranch, classifyPure, isNewKey, isChangedKey,
        Snapshot.hasKey, Snapshot.getD, hn, ho, hov]
  · simp [classifyKey, classifyPure, isNewKey, Snapshot.hasKey, Snapshot.getD,
      hn, ho, mkNew]
  · by_cases hov : ov = 0
    · subst hov
      by_cases hnv : 0 < nv
      · simp [classifyKey, classifyPure, isNewKey, Snapshot.hasKey,
          Snapshot.getD, hn, ho, hnv, mkNew]
      · by_cases hne : nv = 0
        · subst hne
          simp [classifyKey, changedBranch, classifyPure, isNewKey,
            isChangedKey, Snapshot.hasKey, Snapshot.getD, hn, ho, hnv]
        · simp [classifyKey, changedBranch, classifyPure, isNewKey,
            isChangedKey, Snapshot.hasKey, Snapshot.getD, hn, ho, hnv,
            hne, mkChange, Ne.symm hne]
    · by_cases hne : ov = nv
      · subst hne
        simp [classifyKey, changedBranch, classifyPure, isNewKey,
          isChangedKey, Snapshot.hasKey, Snapshot.getD, hn, ho, hov]
      · simp [classifyKey, changedBranch, classifyPure, isNewKey,
          isChangedKey, Snapshot.hasKey, Snapshot.getD, hn, ho, hov, hne,
          mkChange]

/-- A successful classification pass is the `filter`/`map` of the pure
conditions over the iterated key list, in iteration order. -/
theorem runLoop_ok_eq (o n : Snapshot) (ks : List String)
    (p : List ChangeRecord × List NewItemRecord)
    (h : runLoop o n ks = Except.ok p) :
    p = ((ks.filter fun k => isChangedKey o n k).map (mkChange o n),
         (ks.filter fun k => isNewKey o n k).map (mkNew n)) := by
  induction ks generalizing p with
  | nil =>
    simp only [runLoop, Except.ok.injEq] at h
    simp [← h]
  | cons k ks ih =>
    rw [runLoop] at h
    rcases hc : classifyKey o n k with e | c
    · rw [hc] at h; cases h
    · rw [hc] at h
      rcases hr : runLoop o n ks with e | ⟨cs, ns⟩
      · rw [hr] at h; cases h
      · rw [hr] at h
        have hcs := ih (cs, ns) hr
        rw [Prod.mk.injEq] at hcs
        obtain ⟨hcs1, hcs2⟩ := hcs
        rw [classifyKey_eq] at hc
        by_cases herr : n.find k = Option.none ∧ o.getD k 0 = 0
        · rw [if_pos herr] at hc; cases hc
        · rw [if_neg herr] at hc
          have hcp : c = classifyPure o n k := by
            cases hc; rfl
          subst hcp
          unfold classifyPure at h
          by_cases hnew : isNewKey o n k = true
          · have hch : isChangedKey o n k = false := by
              simp [isChangedKey, hnew]
            simp only [hnew, if_pos] at h
            simp only [Except.ok.injEq] at h
            simp [← h, List.filter_cons, hnew, hch, hcs1, hcs2]
          · by_cases hch : isChangedKey o n k = true
            · simp only [hnew, Bool.false_eq_true, if_false, hch, if_pos] at h
              simp only [Except.ok.injEq] at h
              simp [← h, List.filter_cons, hnew, hch, hcs1, hcs2]
            · simp only [hnew, Bool.false_eq_true, if_false, hch] at h
              simp only [Except.ok.injEq] at h
              simp [← h, List.filter_cons, hnew, hch, hcs1, hcs2]

/-- If any iterated key raises, the whole pass raises. -/
theorem runLoop_error_of_mem (o n : Snapshot) (ks : List String) (k : String)
    (hk : k ∈ ks) (he : classifyKey o n k = Except.error ()) :
    runLoop o n ks = Except.error () := by
  induction ks with
  | nil => cases hk
  | cons a as ih =>
    rw [runLoop]
    rcases hc : classifyKey o n a with e | c
    · cases e; rfl
    · rcases List.mem_cons.mp hk with rfl | hk'
      · rw [hc] at he; cases he
      · rw [ih hk']

/-! ## Order facts about identifiers and the iterated key list -/

theorem str_eq_of_data_eq {a b : String} (h : a.data = b.data) : a = b :=
  congrArg String.mk h

theorem strLt_trans {a b c : String} (h1 : strLt a b) (h2 : strLt b c) :
    strLt a c :=
  trans_of (List.Lex (· < · : Char → Char → Prop)) h1 h2

theorem strLt_trichotomy (a b : String) : strLt a b ∨ a = b ∨ strLt b a := by
  rcases trichotomous_of (List.Lex (· < · : Char → Char → Prop)) a.data b.data
    with h | h | h
  · exact Or.inl h
  · exact Or.inr (Or.inl (str_eq_of_data_eq h))
  · exact Or.inr (Or.inr h)

instance : IsTotal String strLe where
  total a b := by
    rcases strLt_trichotomy a b with h | h | h
    · exact Or.inl (Or.inl h)
    · exact Or.inl (Or.inr h)
    · exact Or.inr (Or.inl h)

instance : IsTrans String strLe where
  trans a b c bab hbc := by
    rcases bab with h | rfl
    · rcases hbc with h' | rfl
      · exact Or.inl (strLt_trans h h')
      · exact Or.inl h
    · exact hbc

/-- Key membership agrees with lookup success. -/
theorem find_isSome_iff {s : Snapshot} {k : String} :
    (s.find k).isSome = true ↔ k ∈ s.keys := by
  induction s with
  | nil => simp [Snapshot.find, Snapshot.keys]
  | cons p t ih =>
    obtain ⟨a, v⟩ := p
    by_cases h : k = a
    · subst h
      simp [Snapshot.find, Snapshot.keys, List.lookup_cons]
    · simp only [Snapshot.find, List.lookup_cons, beq_false_of_ne h,
        Snapshot.keys, List.map_cons, List.mem_cons]
      simp only [Snapshot.find, Snapshot.keys] at ih
      simp [ih, h]

/-- The iterated key list contains exactly the keys of the two snapshots. -/
theorem mem_unionKeys {o n : Snapshot} {k : String} :
    k ∈ unionKeys o n ↔ k ∈ o.keys ∨ k ∈ n.keys := by
  unfold unionKeys
  rw [(List.perm_insertionSort _ _).mem_iff, List.mem_dedup, List.mem_append]

/-- The iterated key list has no duplicates (it comes from a set union). -/
theorem nodup_unionKeys (o n : Snapshot) : (unionKeys o n).Nodup :=
  (List.perm_insertionSort _ _).nodup_iff.mpr (List.nodup_dedup _)

/-- The iterated key list is sorted (`sorted(...)` on line 76). -/
theorem sorted_unionKeys (o n : Snapshot) :
    List.Sorted strLe (unionKeys o n) :=
  List.sorted_insertionSort strLe _

/-- Being sorted and duplicate-free, the iterated key list is strictly
increasing. -/
theorem pairwise_strLt_unionKeys (o n : Snapshot) :
    List.Pairwise strLt (unionKeys o n) :=
  (sorted_unionKeys o n).imp₂ (fun _ _ hle hne => hle.resolve_right hne)
    (nodup_unionKeys o n)

/-! ## Characterisation of a successful comparison -/

/-- A successful `compare_json` is completely described by the pure
conditions: records are the `filter`/`map` of the sorted union key list,
and the totals are computed from the record lists. -/
theorem compare_json_result_eq {o n : Snapshot} {r : DiffResult}
    (h : compare_json o n = CompareOutcome.result r) :
    r.changes =
        ((unionKeys o n).filter fun k => isChangedKey o n k).map
          (mkChange o n) ∧
      r.new_decos =
        ((unionKeys o n).filter fun k => isNewKey o n k).map (mkNew n) ∧
      r.total_changed = (r.changes.map ChangeRecord.added).sum ∧
      r.total_new = r.new_decos.length := by
  unfold compare_json at h
  by_cases hid : sortedItems o = sortedItems n
  · rw [if_pos hid] at h; cases h
  · rw [if_neg hid] at h
    rcases hr : runLoop o n (unionKeys o n) with e | ⟨cs, ns⟩
    · rw [hr] at h; cases h
    · rw [hr] at h
      have hp := runLoop_ok_eq o n (unionKeys o n) (cs, ns) hr
      rw [Prod.mk.injEq] at hp
      obtain ⟨h1, h2⟩ := hp
      cases h
      exact ⟨h1, h2, rfl, rfl⟩

/-- The change-record identifiers of a successful comparison are exactly
the keys passing the changed condition, in key-list order. -/
theorem changeIds_eq {o n : Snapshot} {r : DiffResult}
    (h : compare_json o n = CompareOutcome.result r) :
    r.changes.map ChangeRecord.id =
      (unionKeys o n).filter fun k => isChangedKey o n k := by
  obtain ⟨h1, -, -, -⟩ := compare_json_result_eq h
  rw [h1, List.map_map]
  have hid : (ChangeRecord.id ∘ mkChange o n) = id := by
    funext k; rfl
  rw [hid, List.map_id]

/-- The new-record identifiers of a successful comparison are exactly the
keys passing the new condition, in key-list order. -/
theorem newIds_eq {o n : Snapshot} {r : DiffResult}
    (h : compare_json o n = CompareOutcome.result r) :
    r.new_decos.map NewItemRecord.id =
      (unionKeys o n).filter fun k => isNewKey o n k := by
  obtain ⟨-, h2, -, -⟩ := compare_json_result_eq h
  rw [h2, List.map_map]
  have hid : (NewItemRecord.id ∘ mkNew n) = id := by
    funext k; rfl
  rw [hid, List.map_id]

/-- A key passing the new condition is a key of the new snapshot. -/
theorem isNewKey_find {o n : Snapshot} {k : String}
    (h : isNewKey o n k = true) : (n.find k).isSome = true := by
  unfold isNewKey at h
  rcases hn : n.find k with _ | nv
  · rw [hn] at h
    simp [Snapshot.hasKey, hn] at h
  · rfl

/-- A key passing the changed condition is a key of both snapshots. -/
theorem isChangedKey_find {o n : Snapshot} {k : String}
    (h : isChangedKey o n k = true) :
    (n.find k).isSome = true ∧ (o.find k).isSome = true := by
  unfold isChangedKey at h
  rcases hn : n.find k with _ | nv <;> rcases ho : o.find k with _ | ov <;>
    rw [hn, ho] at h <;> simp at h ⊢

/-- Membership in the change identifiers, for any key. -/
theorem mem_changeIds_iff {o n : Snapshot} {r : DiffResult}
    (h : compare_json o n = CompareOutcome.result r) {k : String} :
    k ∈ r.changes.map ChangeRecord.id ↔ isChangedKey o n k = true := by
  rw [changeIds_eq h, List.mem_filter]
  constructor
  · exact fun hx => hx.2
  · intro hx
    refine ⟨mem_unionKeys.mpr (Or.inr ?_), hx⟩
    exact find_isSome_iff.mp (isChangedKey_find hx).1

/-- Membership in the new identifiers, for any key. -/
theorem mem_newIds_iff {o n : Snapshot} {r : DiffResult}
    (h : compare_json o n = CompareOutcome.result r) {k : String} :
    k ∈ r.new_decos.map NewItemRecord.id ↔ isNewKey o n k = true := by
  rw [newIds_eq h, List.mem_filter]
  constructor
  · exact fun hx => hx.2
  · intro hx
    refine ⟨mem_unionKeys.mpr (Or.inr ?_), hx⟩
    exact find_isSome_iff.mp (isNewKey_find hx)

/-- The pure conditions, combined, say exactly: the key is present in the
new snapshot and (its default-0 values differ, or it is absent from the
old snapshot). -/
theorem record_cond_iff (o n : Snapshot) (k : String) :
    (isNewKey o n k || isChangedKey o n k) = true ↔
      (n.find k).isSome = true ∧
        (o.getD k 0 ≠ n.getD k 0 ∨ o.find k = Option.none) := by
  rcases hn : n.find k with _ | nv <;> rcases ho : o.find k with _ | ov <;>
    simp [isNewKey, isChangedKey, Snapshot.hasKey, Snapshot.getD, hn, ho] <;>
    omega

/-! ## Remaining helper lemmas -/

/-- The changed condition includes the negation of the new condition
(`elif`). -/
theorem isChangedKey_not_new {o n : Snapshot} {k : String}
    (h : isChangedKey o n k = true) : isNewKey o n k = false := by
  unfold isChangedKey at h
  rw [Bool.and_eq_true] at h
  cases hx : isNewKey o n k
  · rfl
  · rw [hx] at h
    exact absurd h.1 (by simp)

/-- A new key that is present in the old snapshot got there through the
zero-to-positive rule, so its recorded amount is positive. -/
theorem isNewKey_with_old {o n : Snapshot} {k : String}
    (h : isNewKey o n k = true) (ho : (o.find k).isSome = true) :
    0 < n.getD k 0 := by
  unfold isNewKey at h
  rw [Bool.or_eq_true, Bool.and_eq_true, Bool.and_eq_true] at h
  rcases h with ⟨-, hfalse⟩ | ⟨-, hpos⟩
  · rw [Snapshot.hasKey, ho] at hfalse
    cases hfalse
  · rcases hn : n.find k with _ | v
    · rw [hn] at hpos
      cases hpos
    · rw [hn] at hpos
      rw [Snapshot.getD, hn]
      simpa using hpos

/-- Change-record identifiers are duplicate-free. -/
theorem nodup_changeIds {o n : Snapshot} {r : DiffResult}
    (h : compare_json o n = CompareOutcome.result r) :
    (r.changes.map ChangeRecord.id).Nodup := by
  rw [changeIds_eq h]
  exact (nodup_unionKeys o n).filter _

/-- New-record identifiers are duplicate-free. -/
theorem nodup_newIds {o n : Snapshot} {r : DiffResult}
    (h : compare_json o n = CompareOutcome.result r) :
    (r.new_decos.map NewItemRecord.id).Nodup := by
  rw [newIds_eq h]
  exact (nodup_unionKeys o n).filter _

/-! ## Claim theorems -/

/-- C5: for every pair of snapshots whose sorted lists of (key, value)
pairs are exactly equal, `compare_json` signals the distinct "no
differences" outcome (and only then): no record lists, totals or any
other artifact are produced. -/
theorem identical_snapshots_short_circuit (o n : Snapshot) :
    compare_json o n = CompareOutcome.identical ↔
      sortedItems o = sortedItems n := by
  constructor
  · intro h
    by_contra hne
    unfold compare_json at h
    rw [if_neg hne] at h
    rcases hr : runLoop o n (unionKeys o n) with e | ⟨cs, ns⟩ <;>
      rw [hr] at h <;> cases h
  · intro he
    unfold compare_json
    rw [if_pos he]

/-- C6: the spec's worked scenario.  `old = {"A": 5, "B": 0, "C": 10}`,
`new = {"A": 5, "B": 3, "C": 15, "D": 2}` yields exactly one change
record for C (delta 5, total 15), new records for B (3) and D (2),
`total_changed = 5`, `total_new = 2`, and nothing for A. -/
theorem scenario_example :
    compare_json [("A", 5), ("B", 0), ("C", 10)]
        [("A", 5), ("B", 3), ("C", 15), ("D", 2)] =
      CompareOutcome.result
        ⟨[⟨"C", 5, 15⟩], [⟨"B", 3⟩, ⟨"D", 2⟩], 5, 2⟩ := by
  decide

/-- C7: on every successful comparison, `total_changed` is the signed sum
of the change deltas (nothing enforces non-negativity) and `total_new`
counts the new records (it is not a sum of amounts). -/
theorem totals_from_records {o n : Snapshot} {r : DiffResult}
    (h : compare_json o n = CompareOutcome.result r) :
    r.total_changed = (r.changes.map ChangeRecord.added).sum ∧
      r.total_new = r.new_decos.length := by
  obtain ⟨-, -, h3, h4⟩ := compare_json_result_eq h
  exact ⟨h3, h4⟩

/-- Witness for C7, on a comparison whose only delta is negative
(total_changed = -2 < 0). -/
theorem totals_from_records_witness :
    (⟨[⟨"A", -2, 3⟩], [], -2, 0⟩ : DiffResult).total_changed =
        (((⟨[⟨"A", -2, 3⟩], [], -2, 0⟩ : DiffResult).changes.map
          ChangeRecord.added).sum) ∧
      (⟨[⟨"A", -2, 3⟩], [], -2, 0⟩ : DiffResult).total_new =
        (⟨[⟨"A", -2, 3⟩], [], -2, 0⟩ : DiffResult).new_decos.length :=
  @totals_from_records [("A", 5)] [("A", 3)] ⟨[⟨"A", -2, 3⟩], [], -2, 0⟩
    (by decide)

/-- C10: an identifier with quantity 0 in the old snapshot and entirely
absent from the new one makes the classification pass raise a key-lookup
error (when the snapshots are not identical): `compare_json` yields no
DiffResult. -/
theorem zero_removed_key_raises {o n : Snapshot} {id : String}
    (ho : o.find id = some 0) (hn : n.find id = Option.none)
    (hne : sortedItems o ≠ sortedItems n) :
    compare_json o n = CompareOutcome.keyError := by
  have hmem : id ∈ unionKeys o n :=
    mem_unionKeys.mpr (Or.inl (find_isSome_iff.mp (by rw [ho]; rfl)))
  have herr : classifyKey o n id = Except.error () := by
    rw [classifyKey_eq]
    exact if_pos ⟨hn, by rw [Snapshot.getD, ho]; rfl⟩
  unfold compare_json
  rw [if_neg hne, runLoop_error_of_mem o n _ id hmem herr]

/-- Witness for C10: `old = {"A": 0}`, `new = {}` raises. -/
theorem zero_removed_key_raises_witness :
    compare_json [("A", 0)] [] = CompareOutcome.keyError :=
  @zero_removed_key_raises [("A", 0)] [] "A" (by decide) (by decide)
    (by decide)

/-- C2: an identifier stored with quantity 0 in the old snapshot and a
positive quantity v in the new one is classified as new — it yields
NewItemRecord (id, v) — and never as changed (the new-item rule is
checked first). -/
theorem zero_to_positive_is_new {o n : Snapshot} {r : DiffResult}
    {id : String} {v : Int}
    (h : compare_json o n = CompareOutcome.result r)
    (ho : o.find id = some 0) (hn : n.find id = some v) (hv : 0 < v) :
    (⟨id, v⟩ : NewItemRecord) ∈ r.new_decos ∧
      ∀ c ∈ r.changes, c.id ≠ id := by
  have hnew : isNewKey o n id = true := by
    simp [isNewKey, Snapshot.hasKey, Snapshot.getD, ho, hn, hv]
  constructor
  · obtain ⟨-, h2, -, -⟩ := compare_json_result_eq h
    rw [h2]
    have hmemU : id ∈ unionKeys o n :=
      mem_unionKeys.mpr (Or.inr (find_isSome_iff.mp (by rw [hn]; rfl)))
    have hfil : id ∈ (unionKeys o n).filter (fun k => isNewKey o n k) :=
      List.mem_filter.mpr ⟨hmemU, hnew⟩
    have hm := List.mem_map_of_mem (mkNew n) hfil
    simpa [mkNew, Snapshot.getD, hn] using hm
  · intro c hc hcid
    have hcmem : c.id ∈ r.changes.map ChangeRecord.id :=
      List.mem_map_of_mem _ hc
    rw [mem_changeIds_iff h, hcid] at hcmem
    rw [isChangedKey_not_new hcmem] at hnew
    cases hnew

/-- Witness for C2: `old = {"B": 0}`, `new = {"B": 3}`. -/
theorem zero_to_positive_is_new_witness :
    (⟨"B", 3⟩ : NewItemRecord) ∈
        (⟨[], [⟨"B", 3⟩], 0, 1⟩ : DiffResult).new_decos ∧
      ∀ c ∈ (⟨[], [⟨"B", 3⟩], 0, 1⟩ : DiffResult).changes, c.id ≠ "B" :=
  @zero_to_positive_is_new [("B", 0)] [("B", 3)] ⟨[], [⟨"B", 3⟩], 0, 1⟩
    "B" 3 (by decide) (by decide) (by decide) (by decide)

/-- C3: an identifier present in both snapshots with differing values,
whose old value is nonzero (so the new-item rule does not trigger),
yields exactly one ChangeRecord (id, new - old, new), and no new-item
record. -/
theorem changed_produces_one_record {o n : Snapshot} {r : DiffResult}
    {id : String} {a b : Int}
    (h : compare_json o n = CompareOutcome.result r)
    (ho : o.find id = some a) (hn : n.find id = some b)
    (hne : a ≠ b) (ha : a ≠ 0) :
    (⟨id, b - a, b⟩ : ChangeRecord) ∈ r.changes ∧
      r.changes.countP (fun c => c.id == id) = 1 ∧
      (∀ c ∈ r.changes, c.id = id → c = ⟨id, b - a, b⟩) ∧
      ∀ x ∈ r.new_decos, x.id ≠ id := by
  have hnotnew : isNewKey o n id = false := by
    simp [isNewKey, Snapshot.hasKey, Snapshot.getD, ho, hn, ha]
  have hch : isChangedKey o n id = true := by
    simp [isChangedKey, hnotnew, ho, hn, hne]
  obtain ⟨h1, -, -, -⟩ := compare_json_result_eq h
  have hmemU : id ∈ unionKeys o n :=
    mem_unionKeys.mpr (Or.inr (find_isSome_iff.mp (by rw [hn]; rfl)))
  refine ⟨?_, ?_, ?_, ?_⟩
  · rw [h1]
    have hfil : id ∈ (unionKeys o n).filter (fun k => isChangedKey o n k) :=
      List.mem_filter.mpr ⟨hmemU, hch⟩
    have hm := List.mem_map_of_mem (mkChange o n) hfil
    simpa [mkChange, Snapshot.getD, ho, hn] using hm
  · have hmemid : id ∈ r.changes.map ChangeRecord.id := by
      rw [mem_changeIds_iff h]
      exact hch
    have hcount := List.count_eq_one_of_mem (nodup_changeIds h) hmemid
    rw [List.count, List.countP_map] at hcount
    exact hcount
  · intro c hc hcid
    rw [h1] at hc
    obtain ⟨k, -, rfl⟩ := List.mem_map.mp hc
    have hk : k = id := hcid
    subst hk
    simp [mkChange, Snapshot.getD, ho, hn]
  · intro x hx hxid
    have hxmem : x.id ∈ r.new_decos.map NewItemRecord.id :=
      List.mem_map_of_mem _ hx
    rw [mem_newIds_iff h, hxid, hnotnew] at hxmem
    cases hxmem

/-- Witness for C3: `old = {"C": 10}`, `new = {"C": 15}`. -/
theorem changed_produces_one_record_witness :
    (⟨"C", 5, 15⟩ : ChangeRecord) ∈
        (⟨[⟨"C", 5, 15⟩], [], 5, 0⟩ : DiffResult).changes ∧
      (⟨[⟨"C", 5, 15⟩], [], 5, 0⟩ : DiffResult).changes.countP
          (fun c => c.id == "C") = 1 ∧
      (∀ c ∈ (⟨[⟨"C", 5, 15⟩], [], 5, 0⟩ : DiffResult).changes,
        c.id = "C" → c = ⟨"C", 5, 15⟩) ∧
      ∀ x ∈ (⟨[⟨"C", 5, 15⟩], [], 5, 0⟩ : DiffResult).new_decos,
        x.id ≠ "C" :=
  @changed_produces_one_record [("C", 10)] [("C", 15)]
    ⟨[⟨"C", 5, 15⟩], [], 5, 0⟩ "C" 10 15 (by decide) (by decide) (by decide)
    (by decide) (by decide)

/-- C4: an identifier present in the old snapshot with a positive value
and entirely absent from the new one gets no record in either list. -/
theorem removed_item_silently_dropped {o n : Snapshot} {r : DiffResult}
    {id : String} {v : Int}
    (h : compare_json o n = CompareOutcome.result r)
    (ho : o.find id = some v) (hv : 0 < v)
    (hn : n.find id = Option.none) :
    (∀ c ∈ r.changes, c.id ≠ id) ∧ ∀ x ∈ r.new_decos, x.id ≠ id := by
  constructor
  · intro c hc hcid
    have hcmem : c.id ∈ r.changes.map ChangeRecord.id :=
      List.mem_map_of_mem _ hc
    rw [mem_changeIds_iff h, hcid] at hcmem
    have := (isChangedKey_find hcmem).1
    rw [hn] at this
    cases this
  · intro x hx hxid
    have hxmem : x.id ∈ r.new_decos.map NewItemRecord.id :=
      List.mem_map_of_mem _ hx
    rw [mem_newIds_iff h, hxid] at hxmem
    have := isNewKey_find hxmem
    rw [hn] at this
    cases this

/-- Witness for C4: `old = {"X": 4, "Y": 1}`, `new = {"Y": 2}` — X is
silently dropped. -/
theorem removed_item_silently_dropped_witness :
    (∀ c ∈ (⟨[⟨"Y", 1, 2⟩], [], 1, 0⟩ : DiffResult).changes,
        c.id ≠ "X") ∧
      ∀ x ∈ (⟨[⟨"Y", 1, 2⟩], [], 1, 0⟩ : DiffResult).new_decos,
        x.id ≠ "X" :=
  @removed_item_silently_dropped [("X", 4), ("Y", 1)] [("Y", 2)]
    ⟨[⟨"Y", 1, 2⟩], [], 1, 0⟩ "X" 4 (by decide) (by decide) (by decide)
    (by decide)

/-- C8: on every successful comparison, both record lists come out in
strictly ascending identifier order. -/
theorem output_in_ascending_id_order {o n : Snapshot} {r : DiffResult}
    (h : compare_json o n = CompareOutcome.result r) :
    List.Pairwise strLt (r.changes.map ChangeRecord.id) ∧
      List.Pairwise strLt (r.new_decos.map NewItemRecord.id) := by
  rw [changeIds_eq h, newIds_eq h]
  exact ⟨(pairwise_strLt_unionKeys o n).filter _,
    (pairwise_strLt_unionKeys o n).filter _⟩

/-- Witness for C8, on the spec's worked scenario. -/
theorem output_in_ascending_id_order_witness :
    List.Pairwise strLt
        ((⟨[⟨"C", 5, 15⟩], [⟨"B", 3⟩, ⟨"D", 2⟩], 5, 2⟩ :
          DiffResult).changes.map ChangeRecord.id) ∧
      List.Pairwise strLt
        ((⟨[⟨"C", 5, 15⟩], [⟨"B", 3⟩, ⟨"D", 2⟩], 5, 2⟩ :
          DiffResult).new_decos.map NewItemRecord.id) :=
  @output_in_ascending_id_order [("A", 5), ("B", 0), ("C", 10)]
    [("A", 5), ("B", 3), ("C", 15), ("D", 2)]
    ⟨[⟨"C", 5, 15⟩], [⟨"B", 3⟩, ⟨"D", 2⟩], 5, 2⟩ (by decide)

/-- C9 (counterexample): a key absent from the old snapshot whose new
value is 0 still produces a NewItemRecord, with amount 0 — the claimed
invariant "every NewItemRecord has a positive amount" fails on
`old = {}`, `new = {"A": 0}`. -/
theorem new_amount_positive_counterexample :
    ∃ r, compare_json [] [("A", 0)] = CompareOutcome.result r ∧
      ∃ x ∈ r.new_decos, ¬(0 < x.amount) := by
  refine ⟨⟨[], [⟨"A", 0⟩], 0, 1⟩, by decide, ⟨"A", 0⟩, by decide, by decide⟩

/-- C9 (amended): every NewItemRecord copies the new snapshot's value as
its amount, and that amount is positive whenever the identifier is
present in the old snapshot (the zero-to-positive rule); for identifiers
absent from the old snapshot the value is copied unchecked, so it need
not be positive. -/
theorem new_records_amount_eq {o n : Snapshot} {r : DiffResult}
    (h : compare_json o n = CompareOutcome.result r) :
    ∀ x ∈ r.new_decos,
      x.amount = n.getD x.id 0 ∧
        ((o.find x.id).isSome = true → 0 < x.amount) := by
  obtain ⟨-, h2, -, -⟩ := compare_json_result_eq h
  intro x hx
  rw [h2] at hx
  obtain ⟨k, hk, rfl⟩ := List.mem_map.mp hx
  have hknew := (List.mem_filter.mp hk).2
  exact ⟨rfl, fun hok => isNewKey_with_old hknew hok⟩

/-- Witness for the amended C9: `old = {"B": 0}`, `new = {"B": 3}`,
instantiated at its one new record. -/
theorem new_records_amount_eq_witness :
    (⟨"B", 3⟩ : NewItemRecord).amount =
        Snapshot.getD [("B", 3)] (⟨"B", 3⟩ : NewItemRecord).id 0 ∧
      ((Snapshot.find [("B", 0)] (⟨"B", 3⟩ : NewItemRecord).id).isSome =
          true → 0 < (⟨"B", 3⟩ : NewItemRecord).amount) :=
  @new_records_amount_eq [("B", 0)] [("B", 3)] ⟨[], [⟨"B", 3⟩], 0, 1⟩
    (by decide) ⟨"B", 3⟩ (by decide)

/-- C1 (counterexample): the claimed identity "record identifiers =
identifiers with `old.get(id,0) != new.get(id,0)`" fails for removed
items: on `old = {"A": 5}`, `new = {}` the default-0 values of "A"
differ, yet neither record list mentions "A". -/
theorem classification_partition_counterexample :
    ∃ r, compare_json [("A", 5)] [] = CompareOutcome.result r ∧
      Snapshot.getD [("A", 5)] "A" 0 ≠ Snapshot.getD [] "A" 0 ∧
      "A" ∉ r.changes.map ChangeRecord.id ∧
      "A" ∉ r.new_decos.map NewItemRecord.id := by
  refine ⟨⟨[], [], 0, 0⟩, by decide, by decide, by decide, by decide⟩

/-- C1 (amended): on every successful comparison, the union of record
identifiers equals exactly the identifiers present in the NEW snapshot
whose default-0 values differ or that are absent from the old snapshot
(identifiers present only in the old snapshot never appear); moreover
each record list is duplicate-free and the two lists are disjoint, so
every key is classified into exactly one of unchanged, new, changed. -/
theorem classification_partition {o n : Snapshot} {r : DiffResult}
    (h : compare_json o n = CompareOutcome.result r) :
    (∀ k : String,
        (k ∈ r.changes.map ChangeRecord.id ∨
            k ∈ r.new_decos.map NewItemRecord.id) ↔
          ((n.find k).isSome = true ∧
            (o.getD k 0 ≠ n.getD k 0 ∨ o.find k = Option.none))) ∧
      (r.changes.map ChangeRecord.id).Nodup ∧
      (r.new_decos.map NewItemRecord.id).Nodup ∧
      ∀ k : String,
        ¬(k ∈ r.changes.map ChangeRecord.id ∧
          k ∈ r.new_decos.map NewItemRecord.id) := by
  refine ⟨?_, nodup_changeIds h, nodup_newIds h, ?_⟩
  · intro k
    rw [mem_changeIds_iff h, mem_newIds_iff h, ← record_cond_iff o n k,
      Bool.or_eq_true, or_comm]
  · rintro k ⟨hc, hw⟩
    rw [mem_changeIds_iff h] at hc
    rw [mem_newIds_iff h] at hw
    rw [isChangedKey_not_new hc] at hw
    cases hw

/-- Witness for the amended C1, on `old = {"A": 5}`, `new = {"B": 1}`. -/
theorem classification_partition_witness :
    (∀ k : String,
        (k ∈ (⟨[], [⟨"B", 1⟩], 0, 1⟩ : DiffResult).changes.map
            ChangeRecord.id ∨
          k ∈ (⟨[], [⟨"B", 1⟩], 0, 1⟩ : DiffResult).new_decos.map
            NewItemRecord.id) ↔
          ((Snapshot.find [("B", 1)] k).isSome = true ∧
            (Snapshot.getD [("A", 5)] k 0 ≠ Snapshot.getD [("B", 1)] k 0 ∨
              Snapshot.find [("A", 5)] k = Option.none))) ∧
      ((⟨[], [⟨"B", 1⟩], 0, 1⟩ : DiffResult).changes.map
        ChangeRecord.id).Nodup ∧
      ((⟨[], [⟨"B", 1⟩], 0, 1⟩ : DiffResult).new_decos.map
        NewItemRecord.id).Nodup ∧
      ∀ k : String,
        ¬(k ∈ (⟨[], [⟨"B", 1⟩], 0, 1⟩ : DiffResult).changes.map
            ChangeRecord.id ∧
          k ∈ (⟨[], [⟨"B", 1⟩], 0, 1⟩ : DiffResult).new_decos.map
            NewItemRecord.id) :=
  @classification_partition [("A", 5)] [("B", 1)] ⟨[], [⟨"B", 1⟩], 0, 1⟩
    (by decide)
